import Mathlib

/-!
Shallow embedding of the transposition table (`src/tt.cpp`, `src/tt.h`) of
the Stockfish-derived engine, together with proofs about its behaviour.

Machine integers are modelled as `Nat` (for the unsigned fields `key16`,
`depth8`, `genBound8`, `move16`, `extra`, `generation8`) and `Int` (for the
signed fields `value16`, `eval16` and for `Depth`/`Value` arguments), with
explicit reductions modulo `2^8`/`2^16` exactly where the C++ code performs
integral casts or where `uint8_t`/`uint16_t` storage truncates.
-/

namespace TT

/-- Modelled from the spec: `DEPTH_ENTRY_OFFSET` is declared in `types.h`,
which is not part of this source snapshot.  The spec fixes that `depth8`
stores `search_depth − DEPTH_ENTRY_OFFSET` and that negative quiescence
depths must be storable while `depth8 = 0` means "empty"; the engine's value
is `-3`.  Every theorem below is stated relative to this constant. -/
def DEPTH_ENTRY_OFFSET : Int := -3

/-- Modelled from the spec: `VALUE_NONE` is declared in `types.h`, which is
not part of this source snapshot.  The spec only uses it as the "no value"
marker of the default miss snapshot; the engine's value is `32002` (all that
matters below is that it is not `0`). -/
def VALUE_NONE : Int := 32002

/-- Bound values, from the spec data model: `NONE=0, UPPER=1, LOWER=2, EXACT=3`. -/
def BOUND_NONE : Nat := 0

def BOUND_UPPER : Nat := 1

def BOUND_LOWER : Nat := 2

def BOUND_EXACT : Nat := 3

/-- From tt.cpp: `static constexpr unsigned GENERATION_BITS = 3;` -/
def GENERATION_BITS : Nat := 3

/-- From tt.cpp: `static constexpr int GENERATION_DELTA = (1 << GENERATION_BITS);` -/
def GENERATION_DELTA : Nat := 1 <<< GENERATION_BITS

/-- From tt.cpp: `static constexpr int GENERATION_CYCLE = 255 + GENERATION_DELTA;` -/
def GENERATION_CYCLE : Nat := 255 + GENERATION_DELTA

/-- From tt.cpp: `static constexpr int GENERATION_MASK = (0xFF << GENERATION_BITS) & 0xFF;` -/
def GENERATION_MASK : Nat := (0xFF <<< GENERATION_BITS) &&& 0xFF

/-- Truncation of an integer to a signed 16-bit value, as performed by the
C++ casts `int16_t(v)` in `TTEntry::save`. -/
def int16ofInt (v : Int) : Int := (v + 32768) % 65536 - 32768

/-- One 10-byte table entry (`struct TTEntry` in `tt.cpp`), with the
unsigned bit-field widths recorded by the well-formedness predicate
`TTEntry.WF` below rather than by the types. -/
structure TTEntry where
  key16 : Nat
  depth8 : Nat
  genBound8 : Nat
  move16 : Nat
  value16 : Int
  eval16 : Int
deriving DecidableEq

/-- Field ranges enforced by the C++ storage types
(`uint16_t`, `uint8_t`, `uint8_t`, `Move` = 16 bits, `int16_t`, `int16_t`). -/
def TTEntry.WF (e : TTEntry) : Prop :=
  e.key16 < 65536 ∧ e.depth8 < 256 ∧ e.genBound8 < 256 ∧ e.move16 < 65536 ∧
    -32768 ≤ e.value16 ∧ e.value16 < 32768 ∧ -32768 ≤ e.eval16 ∧ e.eval16 < 32768

instance (e : TTEntry) : Decidable e.WF := by
  unfold TTEntry.WF; infer_instance

/-- From tt.cpp: `bool TTEntry::is_occupied() const { return bool(depth8); }` -/
def TTEntry.is_occupied (e : TTEntry) : Bool := e.depth8 ≠ 0

/-- From tt.cpp, `uint8_t TTEntry::relative_age(const uint8_t generation8) const`:
`(GENERATION_CYCLE + generation8 - genBound8) & GENERATION_MASK`.
The C++ computation happens in `int` and its intermediate value
`263 + generation8 - genBound8` is positive for every byte `genBound8`,
so `Nat` subtraction agrees with it whenever `genBound8 ≤ 263`. -/
def TTEntry.relative_age (e : TTEntry) (generation8 : Nat) : Nat :=
  (GENERATION_CYCLE + generation8 - e.genBound8) &&& GENERATION_MASK

/-- A cluster: three entries plus the shared 16-bit `extra` field
(`struct Cluster` in `tt.cpp`, `kNumEntries = 3`). -/
structure Cluster where
  e0 : TTEntry
  e1 : TTEntry
  e2 : TTEntry
  extra : Nat
deriving DecidableEq

/-- From tt.cpp: `Cluster::kExtraBitsPerEntry = (sizeof(extra) * 8) / kNumEntries = 5`. -/
def kExtraBitsPerEntry : Nat := 16 / 3

/-- Intra-cluster entry lookup (`cluster->entry[i]`). -/
def Cluster.entry (c : Cluster) : Nat → TTEntry
  | 0 => c.e0
  | 1 => c.e1
  | _ => c.e2

/-- Functional update of entry `i` of a cluster. -/
def Cluster.setEntry (c : Cluster) : Nat → TTEntry → Cluster
  | 0, e => { c with e0 := e }
  | 1, e => { c with e1 := e }
  | _, e => { c with e2 := e }

/-- Bit offset used by the accessor `TTExtraEntry<1, 0>` for intra-cluster
index `i`: `LocalOffset + index * kExtraBitsPerEntry` with `LocalOffset = 0`. -/
def extraOffset (i : Nat) : Nat := 0 + i * kExtraBitsPerEntry

/-- Read of the one-bit extra entry:
`cluster_->extra >> offset() & mask()` with `mask() = 1`. -/
def Cluster.cutBit (c : Cluster) (i : Nat) : Nat :=
  c.extra >>> extraOffset i &&& 1

/-- Write of the one-bit extra entry:
`cluster_->extra = cluster_->extra & ~(mask() << offset()) | (uint16(val) << offset())`.
`extra` is a `uint16_t`, so the bitwise complement of the 1-bit mask acts on
it as `0xFFFF ^^^ (1 <<< offset)`, and the final assignment truncates to 16
bits. -/
def Cluster.writeCutBit (c : Cluster) (i : Nat) (val : Nat) : Cluster :=
  { c with extra :=
      (c.extra &&& (0xFFFF ^^^ (1 <<< extraOffset i)) |||
        (val % 65536) <<< extraOffset i) % 65536 }

/-- The plain-data snapshot (`struct TTData`); `tt.cpp` constructs it with
the seven fields move, value, eval, depth, bound, is-PV and cut. -/
structure TTData where
  move : Nat
  value : Int
  eval : Int
  depth : Int
  bound : Nat
  pvHit : Bool
  cutHit : Bool
deriving DecidableEq

/-- From tt.cpp, `TTData TTEntry::read() const`, for the entry at intra-cluster index `i`:
`{Move(move16), Value(value16), Value(eval16), Depth(depth8 + DEPTH_ENTRY_OFFSET),
Bound(genBound8 & 0x3), bool(genBound8 & 0x4), bool(cutNode1())}`. -/
def Cluster.read (c : Cluster) (i : Nat) : TTData :=
  { move := (c.entry i).move16
    value := (c.entry i).value16
    eval := (c.entry i).eval16
    depth := ((c.entry i).depth8 : Int) + DEPTH_ENTRY_OFFSET
    bound := (c.entry i).genBound8 &&& 0x3
    pvHit := (c.entry i).genBound8 &&& 0x4 ≠ 0
    cutHit := c.cutBit i ≠ 0 }

/-- From tt.cpp, `void TTEntry::save(Key k, Value v, bool pv, Bound b, Depth d, Move m,
Value ev, bool cut, uint8_t generation8)`, acting on the entry at
intra-cluster index `i` of cluster `c` (the C++ entry writes the cut flag
through the cluster's `extra` field, so the whole cluster is the state). -/
def Cluster.save (c : Cluster) (i : Nat) (k : Nat) (v : Int) (pv : Bool)
    (b : Nat) (d : Int) (m : Nat) (ev : Int) (cut : Bool)
    (generation8 : Nat) : Cluster :=
  let e := c.entry i
  -- Preserve the old ttmove if we don't have a new one
  let move' := if m ≠ 0 ∨ k % 65536 ≠ e.key16 then m else e.move16
  -- Overwrite less valuable entries (cheapest checks first)
  if b = BOUND_EXACT ∨ k % 65536 ≠ e.key16 ∨
      d - DEPTH_ENTRY_OFFSET + 2 * (if pv then 1 else 0) > (e.depth8 : Int) - 4 ∨
      e.relative_age generation8 ≠ 0 then
    (c.setEntry i
      { key16 := k % 65536
        depth8 := ((d - DEPTH_ENTRY_OFFSET) % 256).toNat
        genBound8 := (generation8 ||| (if pv then 1 else 0) <<< 2 ||| b) % 256
        move16 := move'
        value16 := int16ofInt v
        eval16 := int16ofInt ev }).writeCutBit i (if cut then 1 else 0)
  else if 5 ≤ (e.depth8 : Int) + DEPTH_ENTRY_OFFSET ∧ e.genBound8 &&& 0x3 ≠ BOUND_EXACT then
    c.setEntry i { e with move16 := move', depth8 := (e.depth8 + 255) % 256 }
  else
    c.setEntry i { e with move16 := move' }

/-- The default snapshot returned by `probe` on a miss:
`TTData{Move::none(), VALUE_NONE, VALUE_NONE, DEPTH_ENTRY_OFFSET, BOUND_NONE, false, false}`. -/
def missData : TTData :=
  { move := 0, value := VALUE_NONE, eval := VALUE_NONE,
    depth := DEPTH_ENTRY_OFFSET, bound := BOUND_NONE, pvHit := false, cutHit := false }

/-- Replacement score of entry `i`:
`tte[i].depth8 - tte[i].relative_age(generation8)`, computed in `int`. -/
def Cluster.replScore (c : Cluster) (generation8 i : Nat) : Int :=
  ((c.entry i).depth8 : Int) - ((c.entry i).relative_age generation8 : Int)

/-- From tt.cpp, `TranspositionTable::probe` restricted to the cluster the key maps to:
scan the three entries for a matching low-16-bit key stub and return
`(is_occupied, read, writer)` at the first match; otherwise run the
replacement scan and return the victim with the miss snapshot.  The writer
is modelled by the intra-cluster index of the returned entry. -/
def Cluster.probe (c : Cluster) (generation8 : Nat) (key : Nat) :
    Bool × TTData × Nat :=
  let key16 := key % 65536
  if (c.entry 0).key16 = key16 then ((c.entry 0).is_occupied, c.read 0, 0)
  else if (c.entry 1).key16 = key16 then ((c.entry 1).is_occupied, c.read 1, 1)
  else if (c.entry 2).key16 = key16 then ((c.entry 2).is_occupied, c.read 2, 2)
  else
    let r1 := if c.replScore generation8 0 > c.replScore generation8 1 then 1 else 0
    let r2 := if c.replScore generation8 r1 > c.replScore generation8 2 then 2 else r1
    (false, missData, r2)

/-- From tt.cpp, `void TranspositionTable::new_search() { generation8 += GENERATION_DELTA; }`
on the `uint8_t` counter. -/
def new_search (generation8 : Nat) : Nat := (generation8 + GENERATION_DELTA) % 256

/-- The generation counter after `k` calls of `new_search()` starting from
the value `0` installed by `TranspositionTable::clear`. -/
def generationAfter : Nat → Nat
  | 0 => 0
  | k + 1 => new_search (generationAfter k)

/-- Table state for `hashfull`: the cluster array (only the first 1000
clusters are ever sampled) and the generation counter. -/
structure Table where
  clusters : Nat → Cluster
  generation8 : Nat

/-- From tt.cpp, `int TranspositionTable::hashfull(int maxAge) const`: two nested loops
over the first 1000 clusters and the 3 entries of each accumulate
`cnt += is_occupied && relative_age(generation8) <= maxAge << GENERATION_BITS`,
and the result is `cnt / kNumEntries`. -/
def Table.hashfull (t : Table) (maxAge : Nat) : Nat :=
  (∑ i ∈ Finset.range 1000, ∑ j ∈ Finset.range 3,
    if ((t.clusters i).entry j).is_occupied = true ∧
        ((t.clusters i).entry j).relative_age t.generation8 ≤ maxAge <<< GENERATION_BITS
    then 1 else 0) / 3

/-- The all-zero entry (state after `TranspositionTable::clear` memsets the
table to zero). -/
def zeroEntry : TTEntry :=
  { key16 := 0, depth8 := 0, genBound8 := 0, move16 := 0, value16 := 0, eval16 := 0 }

/-- The all-zero cluster. -/
def zeroCluster : Cluster := { e0 := zeroEntry, e1 := zeroEntry, e2 := zeroEntry, extra := 0 }

example : GENERATION_DELTA = 8 := by decide
example : GENERATION_CYCLE = 263 := by decide
example : GENERATION_MASK = 248 := by decide
example : kExtraBitsPerEntry = 5 := by decide
example : int16ofInt 5 = 5 := by decide
example : int16ofInt (-5) = -5 := by decide
example : int16ofInt 65536 = 0 := by decide
example : int16ofInt 32768 = -32768 := by decide


/-! ### Helper lemmas -/

theorem shiftRight_and_one (x n : Nat) : x >>> n &&& 1 = (x.testBit n).toNat := by
  rw [Nat.and_one_is_mod, Nat.testBit, Nat.one_and_eq_mod_two]
  rcases Nat.mod_two_eq_zero_or_one (x >>> n) with h | h <;> simp [h]

theorem extraOffset_lt (i : Nat) (hi : i < 3) : extraOffset i < 16 := by
  interval_cases i <;> decide

/-- Shifting by one means multiplication by a power of two. -/
theorem one_shiftLeft (n : Nat) : (1 : Nat) <<< n = 2 ^ n := by
  rw [Nat.shiftLeft_eq, Nat.one_mul]

/-- Bit `j` of the 16-bit complement mask `~(1 << off)` used by the extra
accessor: set everywhere below bit 16 except at `off`. -/
theorem testBit_mask16 (off j : Nat) (hj : j < 16) :
    (65535 ^^^ (1 <<< off)).testBit j = !decide (j = off) := by
  have h65535 : (65535 : Nat) = 2 ^ 16 - 1 := by norm_num
  rw [h65535, one_shiftLeft, Nat.testBit_xor, Nat.testBit_two_pow_sub_one,
    Nat.testBit_two_pow]
  by_cases h : off = j
  · subst h; simp [hj]
  · have h2 : ¬(j = off) := fun hh => h hh.symm
    simp [h, h2, hj]

/-- Writing the one-bit extra entry of index `i` and reading it back at `i`
recovers the written bit, for any starting `extra` value. -/
theorem cutBit_writeCutBit (c : Cluster) (i v : Nat) (hi : i < 3) (hv : v < 2) :
    (c.writeCutBit i v).cutBit i = v := by
  have hoff : extraOffset i < 16 := extraOffset_lt i hi
  have hv16 : v % 65536 = v := Nat.mod_eq_of_lt (by omega)
  have h65536 : (65536 : Nat) = 2 ^ 16 := by norm_num
  unfold Cluster.cutBit Cluster.writeCutBit
  rw [shiftRight_and_one, hv16, h65536, Nat.testBit_mod_two_pow, Nat.testBit_or,
    Nat.testBit_and, testBit_mask16 _ _ hoff]
  interval_cases v <;>
    simp [hoff, Nat.testBit_shiftLeft, Nat.testBit_one_zero]

/-- Writing back the bit that is already stored leaves the cluster
unchanged (for a well-formed 16-bit `extra`). -/
theorem writeCutBit_cutBit (c : Cluster) (i : Nat) (hi : i < 3)
    (he : c.extra < 65536) : c.writeCutBit i (c.cutBit i) = c := by
  have hoff : extraOffset i < 16 := extraOffset_lt i hi
  have hb : c.cutBit i < 2 := by
    unfold Cluster.cutBit
    have := Nat.and_le_right (n := c.extra >>> extraOffset i) (m := 1)
    omega
  have hv16 : c.cutBit i % 65536 = c.cutBit i := Nat.mod_eq_of_lt (by omega)
  have h65536 : (65536 : Nat) = 2 ^ 16 := by norm_num
  have hbit : c.cutBit i = (c.extra.testBit (extraOffset i)).toNat :=
    shiftRight_and_one _ _
  unfold Cluster.writeCutBit
  suffices h : (c.extra &&& (0xFFFF ^^^ (1 <<< extraOffset i)) |||
      (c.cutBit i % 65536) <<< extraOffset i) % 65536 = c.extra by
    rw [h]
  rw [hv16]
  apply Nat.eq_of_testBit_eq
  intro j
  rw [h65536, Nat.testBit_mod_two_pow, Nat.testBit_or, Nat.testBit_and]
  by_cases hj : j < 16
  · rw [testBit_mask16 _ _ hj]
    by_cases hji : j = extraOffset i
    · rw [hji]
      rcases hE : c.extra.testBit (extraOffset i) with _ | _ <;>
        simp [Nat.testBit_shiftLeft, hbit, hE, hoff, Nat.testBit_one_zero]
    · have hlow : (c.cutBit i <<< extraOffset i).testBit j = false := by
        rw [Nat.testBit_shiftLeft]
        by_cases hle : extraOffset i ≤ j
        · have hjo : j - extraOffset i ≠ 0 := by omega
          have hcb : c.cutBit i = 0 ∨ c.cutBit i = 1 := by omega
          rcases hcb with hcb | hcb
          · simp [hcb]
          · rw [hcb, show (1 : Nat) = 2 ^ 0 from rfl, Nat.testBit_two_pow]
            simp only [decide_eq_false_iff_not, Bool.and_eq_false_imp,
              decide_eq_true_eq]
            intro _
            omega
        · simp [hle]
      simp [hlow, hj, hji]
  · have hfalse : c.extra.testBit j = false := by
      apply Nat.testBit_lt_two_pow
      have h2 : (65536 : Nat) ≤ 2 ^ j := by
        calc (65536 : Nat) = 2 ^ 16 := by norm_num
        _ ≤ 2 ^ j := Nat.pow_le_pow_right (by norm_num) (by omega)
      omega
    simp [hj, hfalse]

/-- Updating entry `i` then reading entry `i` gives back the update. -/
theorem entry_setEntry_self (c : Cluster) (i : Nat) (e : TTEntry) :
    (c.setEntry i e).entry i = e := by
  rcases i with _ | _ | i <;> rfl

/-- Updating an entry leaves the shared `extra` field alone. -/
theorem extra_setEntry (c : Cluster) (i : Nat) (e : TTEntry) :
    (c.setEntry i e).extra = c.extra := by
  rcases i with _ | _ | i <;> rfl

/-- Updating an entry leaves every cut bit alone. -/
theorem cutBit_setEntry (c : Cluster) (i : Nat) (e : TTEntry) (j : Nat) :
    (c.setEntry i e).cutBit j = c.cutBit j := by
  unfold Cluster.cutBit
  rw [extra_setEntry]

/-- Writing a cut bit leaves every entry alone. -/
theorem entry_writeCutBit (c : Cluster) (i v j : Nat) :
    ((c.writeCutBit i v).entry j) = c.entry j := by
  rcases j with _ | _ | j <;> rfl

/-- Writing back the entry that is already stored is the identity. -/
theorem setEntry_entry_self (c : Cluster) (i : Nat) :
    c.setEntry i (c.entry i) = c := by
  rcases i with _ | _ | i <;> rfl

/-- Any value masked with `GENERATION_MASK = 0b11111000` is a multiple of
`GENERATION_DELTA = 8`. -/
theorem delta_dvd_and_mask (x : Nat) : 8 ∣ x &&& 248 := by
  have h7 : (248 : Nat) &&& 7 = 0 := by decide
  have h : x &&& 248 &&& 7 = 0 := by
    rw [Nat.and_assoc, h7, Nat.and_zero]
  have hmod : x &&& 248 &&& 7 = (x &&& 248) % 8 := by
    have := Nat.and_pow_two_sub_one_eq_mod (x &&& 248) 3
    simpa using this
  exact Nat.dvd_of_mod_eq_zero (by omega)

/-- Any value masked with `GENERATION_MASK` is at most `248`. -/
theorem and_mask_le (x : Nat) : x &&& 248 ≤ 248 := Nat.and_le_right

/-- Decomposition of the `genBound8` byte written by `save`: with a
generation byte whose low three bits are clear, a PV bit and a two-bit
bound, the three packed fields are independently recoverable. -/
theorem genBound_fields : ∀ t < 32, ∀ b < 4, ∀ p < 2,
    ((8 * t ||| p <<< 2 ||| b) % 256) &&& 3 = b ∧
    ((8 * t ||| p <<< 2 ||| b) % 256) &&& 4 = 4 * p ∧
    ((8 * t ||| p <<< 2 ||| b) % 256) &&& 248 = 8 * t ∧
    (8 * t ||| p <<< 2 ||| b) % 256 = 8 * t + 4 * p + b := by decide

/-! ### Claim theorems -/

/-- C7: for every entry state (any `genBound8` byte value, and in fact any
`Nat` value) and every generation value, `relative_age(gen) =
(GENERATION_CYCLE + gen − genBound8) & GENERATION_MASK` is a non-negative
multiple of `GENERATION_DELTA = 8` and lies in `[0, 256)`. -/
theorem relative_age_multiple_and_bounded (e : TTEntry) (gen : Nat) :
    GENERATION_DELTA ∣ e.relative_age gen ∧ e.relative_age gen < 256 := by
  unfold TTEntry.relative_age
  have hmask : GENERATION_MASK = 248 := by decide
  have hdelta : GENERATION_DELTA = 8 := by decide
  rw [hmask, hdelta]
  exact ⟨delta_dvd_and_mask _, lt_of_le_of_lt (and_mask_le _) (by norm_num)⟩

/-- Closed form of the generation counter: after `k` calls of `new_search`
starting from the `0` installed by `clear`, the counter reads `(8k) mod 256`. -/
theorem generationAfter_eq (k : Nat) : generationAfter k = 8 * k % 256 := by
  induction k with
  | zero => rfl
  | succ n ih =>
    show new_search (generationAfter n) = _
    rw [ih]
    unfold new_search
    have hdelta : GENERATION_DELTA = 8 := by decide
    rw [hdelta]
    omega

/-- C8: starting from generation 0, after `k` executions of `new_search()`
the counter reads `(8k) mod 256` with its low 3 bits zero; after 32 calls it
returns to 0; and the generation bits of every `genBound8` stored by `save`
are a multiple of `GENERATION_DELTA`. -/
theorem generation_counter (k : Nat) :
    generationAfter k = 8 * k % 256 ∧
    generationAfter k &&& 7 = 0 ∧
    generationAfter 32 = 0 ∧
    (∀ (c : Cluster) (i kk : Nat) (v : Int) (pv : Bool) (b : Nat) (d : Int)
        (m : Nat) (ev : Int) (cut : Bool) (g : Nat),
      GENERATION_DELTA ∣
        (((c.save i kk v pv b d m ev cut g).entry i).genBound8 &&& GENERATION_MASK)) := by
  refine ⟨generationAfter_eq k, ?_, by decide, ?_⟩
  · rw [generationAfter_eq k]
    have hand : 8 * k % 256 &&& 7 = 8 * k % 256 % 8 := by
      have := Nat.and_pow_two_sub_one_eq_mod (8 * k % 256) 3
      simpa using this
    omega
  · intro c i kk v pv b d m ev cut g
    have hmask : GENERATION_MASK = 248 := by decide
    have hdelta : GENERATION_DELTA = 8 := by decide
    rw [hmask, hdelta]
    exact delta_dvd_and_mask _

/-- C4: the stored `move16` is left unchanged exactly when the incoming move
is `0` and the incoming key stub equals the stored `key16`; in every other
case it is set to the incoming move — independently of whether the
overwrite condition of `save` succeeds. -/
theorem save_move_preservation (c : Cluster) (i k : Nat) (v : Int) (pv : Bool)
    (b : Nat) (d : Int) (m : Nat) (ev : Int) (cut : Bool) (gen : Nat) :
    ((c.save i k v pv b d m ev cut gen).entry i).move16 =
      if m = 0 ∧ k % 65536 = (c.entry i).key16 then (c.entry i).move16 else m := by
  have hmain : ((c.save i k v pv b d m ev cut gen).entry i).move16 =
      (if m ≠ 0 ∨ k % 65536 ≠ (c.entry i).key16 then m else (c.entry i).move16) := by
    simp only [Cluster.save]
    by_cases hcond : (b = BOUND_EXACT ∨ k % 65536 ≠ (c.entry i).key16 ∨
        d - DEPTH_ENTRY_OFFSET + 2 * (if pv then 1 else 0) > ((c.entry i).depth8 : Int) - 4 ∨
        (c.entry i).relative_age gen ≠ 0)
    · rw [if_pos hcond, entry_writeCutBit, entry_setEntry_self]
    · rw [if_neg hcond]
      by_cases hage : (5 ≤ ((c.entry i).depth8 : Int) + DEPTH_ENTRY_OFFSET ∧
          (c.entry i).genBound8 &&& 0x3 ≠ BOUND_EXACT)
      · rw [if_pos hage, entry_setEntry_self]
      · rw [if_neg hage, entry_setEntry_self]
  rw [hmain]
  by_cases hm : m = 0 ∧ k % 65536 = (c.entry i).key16
  · rw [if_pos hm, if_neg (by push_neg; exact hm)]
  · have h2 : m ≠ 0 ∨ k % 65536 ≠ (c.entry i).key16 := by
      rcases Decidable.em (m = 0) with h0 | h0
      · right
        intro hk
        exact hm ⟨h0, hk⟩
      · left
        exact h0
    rw [if_pos h2, if_neg hm]

/-- C9: `hashfull(max_age)` equals `c / 3` where `c` is the number of pairs
`(i, j)`, `i < 1000`, `j < 3`, such that entry `j` of cluster `i` is
occupied and its relative age w.r.t. the current generation is at most
`max_age · GENERATION_DELTA`. -/
theorem hashfull_counts_card (t : Table) (maxAge : Nat) :
    t.hashfull maxAge =
      ((Finset.range 1000 ×ˢ Finset.range 3).filter fun p =>
        ((t.clusters p.1).entry p.2).is_occupied = true ∧
        ((t.clusters p.1).entry p.2).relative_age t.generation8 ≤
          maxAge * GENERATION_DELTA).card / 3 := by
  unfold Table.hashfull
  have hshift : maxAge <<< GENERATION_BITS = maxAge * GENERATION_DELTA := by
    show maxAge <<< 3 = maxAge * (1 <<< 3)
    rw [Nat.shiftLeft_eq, Nat.shiftLeft_eq, Nat.one_mul]
  rw [Finset.card_filter, Finset.sum_product, hshift]

/-- C1: `save` overwrites the stored data (key stub, depth, gen/PV/bound
byte, value, eval, cut flag) with the incoming data if and only if
`b == EXACT`, or the incoming key stub differs from the stored one, or
`(d − DEPTH_ENTRY_OFFSET) + 2·pv > depth8 − 4`, or the stored entry's
relative age is positive; otherwise those fields keep their old values
(the depth possibly aged by the separate decrement rule). -/
theorem save_overwrite_iff (c : Cluster) (i k : Nat) (v : Int) (pv : Bool)
    (b : Nat) (d : Int) (m : Nat) (ev : Int) (cut : Bool) (gen : Nat)
    (hi : i < 3) :
    ((b = BOUND_EXACT ∨ k % 65536 ≠ (c.entry i).key16 ∨
        d - DEPTH_ENTRY_OFFSET + 2 * (if pv then 1 else 0) > ((c.entry i).depth8 : Int) - 4 ∨
        0 < (c.entry i).relative_age gen) →
      ((c.save i k v pv b d m ev cut gen).entry i).key16 = k % 65536 ∧
      ((c.save i k v pv b d m ev cut gen).entry i).depth8 =
        ((d - DEPTH_ENTRY_OFFSET) % 256).toNat ∧
      ((c.save i k v pv b d m ev cut gen).entry i).genBound8 =
        (gen ||| (if pv then 1 else 0) <<< 2 ||| b) % 256 ∧
      ((c.save i k v pv b d m ev cut gen).entry i).value16 = int16ofInt v ∧
      ((c.save i k v pv b d m ev cut gen).entry i).eval16 = int16ofInt ev ∧
      (c.save i k v pv b d m ev cut gen).cutBit i = (if cut then 1 else 0)) ∧
    (¬(b = BOUND_EXACT ∨ k % 65536 ≠ (c.entry i).key16 ∨
        d - DEPTH_ENTRY_OFFSET + 2 * (if pv then 1 else 0) > ((c.entry i).depth8 : Int) - 4 ∨
        0 < (c.entry i).relative_age gen) →
      ((c.save i k v pv b d m ev cut gen).entry i).key16 = (c.entry i).key16 ∧
      ((c.save i k v pv b d m ev cut gen).entry i).genBound8 = (c.entry i).genBound8 ∧
      ((c.save i k v pv b d m ev cut gen).entry i).value16 = (c.entry i).value16 ∧
      ((c.save i k v pv b d m ev cut gen).entry i).eval16 = (c.entry i).eval16 ∧
      (c.save i k v pv b d m ev cut gen).cutBit i = c.cutBit i ∧
      (((c.save i k v pv b d m ev cut gen).entry i).depth8 = (c.entry i).depth8 ∨
        ((c.save i k v pv b d m ev cut gen).entry i).depth8 =
          ((c.entry i).depth8 + 255) % 256)) := by
  constructor
  · intro h
    have hcond : (b = BOUND_EXACT ∨ k % 65536 ≠ (c.entry i).key16 ∨
        d - DEPTH_ENTRY_OFFSET + 2 * (if pv then 1 else 0) > ((c.entry i).depth8 : Int) - 4 ∨
        (c.entry i).relative_age gen ≠ 0) := by
      rcases h with h | h | h | h
      · exact Or.inl h
      · exact Or.inr (Or.inl h)
      · exact Or.inr (Or.inr (Or.inl h))
      · exact Or.inr (Or.inr (Or.inr (by omega)))
    have hcut2 : (if cut then 1 else 0) < 2 := by
      cases cut <;> decide
    simp only [Cluster.save]
    rw [if_pos hcond]
    refine ⟨?_, ?_, ?_, ?_, ?_, ?_⟩ <;>
      first
        | (rw [entry_writeCutBit, entry_setEntry_self])
        | (exact cutBit_writeCutBit _ i _ hi hcut2)
  · intro h
    have hcond : ¬(b = BOUND_EXACT ∨ k % 65536 ≠ (c.entry i).key16 ∨
        d - DEPTH_ENTRY_OFFSET + 2 * (if pv then 1 else 0) > ((c.entry i).depth8 : Int) - 4 ∨
        (c.entry i).relative_age gen ≠ 0) := by
      intro hor
      apply h
      rcases hor with h2 | h2 | h2 | h2
      · exact Or.inl h2
      · exact Or.inr (Or.inl h2)
      · exact Or.inr (Or.inr (Or.inl h2))
      · exact Or.inr (Or.inr (Or.inr (by omega)))
    simp only [Cluster.save]
    rw [if_neg hcond]
    by_cases hage : (5 ≤ ((c.entry i).depth8 : Int) + DEPTH_ENTRY_OFFSET ∧
        (c.entry i).genBound8 &&& 0x3 ≠ BOUND_EXACT)
    · rw [if_pos hage]
      refine ⟨?_, ?_, ?_, ?_, ?_, Or.inr ?_⟩ <;>
        first
          | (rw [entry_setEntry_self])
          | (exact cutBit_setEntry c i _ i)
    · rw [if_neg hage]
      refine ⟨?_, ?_, ?_, ?_, ?_, Or.inl ?_⟩ <;>
        first
          | (rw [entry_setEntry_self])
          | (exact cutBit_setEntry c i _ i)

/-- Concrete instantiation of `save_overwrite_iff`: an EXACT-bound save on
an empty slot installs the incoming value. -/
theorem save_overwrite_iff_witness :
    ((zeroCluster.save 0 17 100 false BOUND_EXACT 5 3 50 true 8).entry 0).value16 = 100 := by
  have h := (save_overwrite_iff zeroCluster 0 17 100 false BOUND_EXACT 5 3 50 true 8
    (by decide)).1 (by decide)
  rw [h.2.2.2.1]
  decide

/-- C5: when the overwrite condition of `save` fails (bound not EXACT,
matching key stub, `(d − DEPTH_ENTRY_OFFSET) + 2·pv ≤ depth8 − 4`, zero
relative age), the fields `key16`, `genBound8`, `value16`, `eval16` and the
cut flag are unchanged; `depth8` is decremented by exactly 1 when the stored
effective depth is at least 5 and the stored bound is not EXACT, and
unchanged otherwise. -/
theorem save_skip_aging (c : Cluster) (i k : Nat) (v : Int) (pv : Bool)
    (b : Nat) (d : Int) (m : Nat) (ev : Int) (cut : Bool) (gen : Nat)
    (hd8 : (c.entry i).depth8 < 256)
    (hb : b ≠ BOUND_EXACT)
    (hkey : k % 65536 = (c.entry i).key16)
    (hdle : d - DEPTH_ENTRY_OFFSET + 2 * (if pv then 1 else 0) ≤ ((c.entry i).depth8 : Int) - 4)
    (hage : (c.entry i).relative_age gen = 0) :
    ((c.save i k v pv b d m ev cut gen).entry i).key16 = (c.entry i).key16 ∧
    ((c.save i k v pv b d m ev cut gen).entry i).genBound8 = (c.entry i).genBound8 ∧
    ((c.save i k v pv b d m ev cut gen).entry i).value16 = (c.entry i).value16 ∧
    ((c.save i k v pv b d m ev cut gen).entry i).eval16 = (c.entry i).eval16 ∧
    (c.save i k v pv b d m ev cut gen).cutBit i = c.cutBit i ∧
    ((5 ≤ ((c.entry i).depth8 : Int) + DEPTH_ENTRY_OFFSET ∧
        (c.entry i).genBound8 &&& 0x3 ≠ BOUND_EXACT) →
      ((c.save i k v pv b d m ev cut gen).entry i).depth8 = (c.entry i).depth8 - 1) ∧
    (¬(5 ≤ ((c.entry i).depth8 : Int) + DEPTH_ENTRY_OFFSET ∧
        (c.entry i).genBound8 &&& 0x3 ≠ BOUND_EXACT) →
      ((c.save i k v pv b d m ev cut gen).entry i).depth8 = (c.entry i).depth8) := by
  have hcond : ¬(b = BOUND_EXACT ∨ k % 65536 ≠ (c.entry i).key16 ∨
      d - DEPTH_ENTRY_OFFSET + 2 * (if pv then 1 else 0) > ((c.entry i).depth8 : Int) - 4 ∨
      (c.entry i).relative_age gen ≠ 0) := by
    push_neg
    exact ⟨hb, hkey, hdle, hage⟩
  simp only [Cluster.save]
  rw [if_neg hcond]
  by_cases hage2 : (5 ≤ ((c.entry i).depth8 : Int) + DEPTH_ENTRY_OFFSET ∧
      (c.entry i).genBound8 &&& 0x3 ≠ BOUND_EXACT)
  · rw [if_pos hage2]
    refine ⟨?_, ?_, ?_, ?_, ?_, ?_, ?_⟩
    · rw [entry_setEntry_self]
    · rw [entry_setEntry_self]
    · rw [entry_setEntry_self]
    · rw [entry_setEntry_self]
    · exact cutBit_setEntry c i _ i
    · intro _
      rw [entry_setEntry_self]
      have h5 : 8 ≤ (c.entry i).depth8 := by
        have := hage2.1
        unfold DEPTH_ENTRY_OFFSET at this
        omega
      show ((c.entry i).depth8 + 255) % 256 = (c.entry i).depth8 - 1
      omega
    · intro hcontra
      exact absurd hage2 hcontra
  · rw [if_neg hage2]
    refine ⟨?_, ?_, ?_, ?_, ?_, ?_, ?_⟩
    · rw [entry_setEntry_self]
    · rw [entry_setEntry_self]
    · rw [entry_setEntry_self]
    · rw [entry_setEntry_self]
    · exact cutBit_setEntry c i _ i
    · intro hcontra
      exact absurd hcontra hage2
    · intro _
      rw [entry_setEntry_self]

/-- Concrete cluster used to instantiate skipped saves: entry 0 is occupied
at depth byte 20 with an UPPER bound from the current generation. -/
def agingCluster : Cluster :=
  { e0 := { key16 := 42, depth8 := 20, genBound8 := 1, move16 := 7,
            value16 := 11, eval16 := -4 },
    e1 := zeroEntry, e2 := zeroEntry, extra := 0 }

/-- Concrete instantiation of `save_skip_aging`: a shallower same-key
non-EXACT save merely decrements the stored depth byte. -/
theorem save_skip_aging_witness :
    ((agingCluster.save 0 42 99 false BOUND_UPPER 5 0 0 false 0).entry 0).depth8 = 19 := by
  have h := save_skip_aging agingCluster 0 42 99 false BOUND_UPPER 5 0 0 false 0
    (by decide) (by decide) (by decide) (by decide) (by decide)
  rw [h.2.2.2.2.2.1 (by decide)]
  decide

/-- Projection reductions for the probe result triple. -/
theorem probeTriple_fst (x : Bool) (y : TTData) (z : Nat) : (x, y, z).1 = x := rfl

theorem probeTriple_data (x : Bool) (y : TTData) (z : Nat) : (x, y, z).2.1 = y := rfl

theorem probeTriple_idx (x : Bool) (y : TTData) (z : Nat) : (x, y, z).2.2 = z := rfl

/-- C3: on a probe miss (no stored key stub equals the key's low 16 bits),
the returned writer points to the entry minimising the replacement score
`depth8 − relative_age` (the constant `k` of the score is 1 in this code),
the scan being left-to-right with strict-less displacement, so ties go to
the leftmost minimal entry; the probe also reports a miss. -/
theorem probe_miss_victim (c : Cluster) (gen key : Nat)
    (h : ∀ j < 3, (c.entry j).key16 ≠ key % 65536) :
    (c.probe gen key).1 = false ∧
    (c.probe gen key).2.1 = missData ∧
    (c.probe gen key).2.2 < 3 ∧
    (∀ j < 3, c.replScore gen (c.probe gen key).2.2 ≤ c.replScore gen j) ∧
    (∀ j < (c.probe gen key).2.2,
      c.replScore gen (c.probe gen key).2.2 < c.replScore gen j) := by
  have h0 := h 0 (by omega)
  have h1 := h 1 (by omega)
  have h2 := h 2 (by omega)
  simp only [Cluster.probe]
  rw [if_neg h0, if_neg h1, if_neg h2]
  simp only [probeTriple_fst, probeTriple_data, probeTriple_idx]
  by_cases hA : c.replScore gen 0 > c.replScore gen 1
  · rw [if_pos hA]
    by_cases hB : c.replScore gen 1 > c.replScore gen 2
    · rw [if_pos hB]
      refine ⟨trivial, trivial, by omega, ?_, ?_⟩
      · intro j hj
        interval_cases j <;> omega
      · intro j hj
        interval_cases j <;> omega
    · rw [if_neg hB]
      refine ⟨trivial, trivial, by omega, ?_, ?_⟩
      · intro j hj
        interval_cases j <;> omega
      · intro j hj
        interval_cases j <;> omega
  · rw [if_neg hA]
    by_cases hB : c.replScore gen 0 > c.replScore gen 2
    · rw [if_pos hB]
      refine ⟨trivial, trivial, by omega, ?_, ?_⟩
      · intro j hj
        interval_cases j <;> omega
      · intro j hj
        interval_cases j <;> omega
    · rw [if_neg hB]
      refine ⟨trivial, trivial, by omega, ?_, ?_⟩
      · intro j hj
        interval_cases j <;> omega
      · intro j hj
        exact absurd hj (by omega)

/-- Concrete cluster for the victim-scan instantiation: three occupied
entries of the current generation with depth bytes 5, 3 and 9 and key stubs
that cannot match key 0. -/
def victimCluster : Cluster :=
  { e0 := { key16 := 1, depth8 := 5, genBound8 := 0, move16 := 0, value16 := 0, eval16 := 0 },
    e1 := { key16 := 2, depth8 := 3, genBound8 := 0, move16 := 0, value16 := 0, eval16 := 0 },
    e2 := { key16 := 3, depth8 := 9, genBound8 := 0, move16 := 0, value16 := 0, eval16 := 0 },
    extra := 0 }

/-- Concrete instantiation of `probe_miss_victim` on `victimCluster`. -/
theorem probe_miss_victim_witness :
    (victimCluster.probe 0 0).1 = false ∧
    victimCluster.replScore 0 (victimCluster.probe 0 0).2.2 ≤ victimCluster.replScore 0 0 := by
  have h := probe_miss_victim victimCluster 0 0 (by decide)
  exact ⟨h.1, h.2.2.2.1 0 (by decide)⟩

/-- Specialised forms of the PV bit of the packed `genBound8` byte. -/
theorem genBound_pv : ∀ t < 32, ∀ b < 4,
    (8 * t ||| b) % 256 &&& 4 = 0 ∧ (8 * t ||| 4 ||| b) % 256 &&& 4 = 4 := by decide

/-- C6: saving any in-range tuple into a zeroed (empty) entry at any
intra-cluster index and reading it back returns exactly the saved move,
value, eval, depth, bound, PV flag and cut flag, the cut flag passing
through the cluster's shared `extra` field. -/
theorem save_read_roundtrip (i k : Nat) (v ev : Int) (pv cut : Bool) (b : Nat)
    (d : Int) (m : Nat) (gen : Nat) (hi : i < 3)
    (hv0 : -32768 ≤ v) (hv1 : v < 32768)
    (hev0 : -32768 ≤ ev) (hev1 : ev < 32768)
    (hb : b < 4)
    (hd0 : DEPTH_ENTRY_OFFSET < d) (hd1 : d < DEPTH_ENTRY_OFFSET + 256)
    (hgen : gen < 256) (hgen8 : gen % 8 = 0) :
    (zeroCluster.save i k v pv b d m ev cut gen).read i =
      { move := m, value := v, eval := ev, depth := d, bound := b,
        pvHit := pv, cutHit := cut } := by
  have hz : zeroCluster.entry i = zeroEntry := by
    interval_cases i <;> rfl
  have hpvb : (if pv then (1 : Int) else 0) = (if pv then 1 else 0 : Nat) := by
    cases pv <;> simp
  have hcond : (b = BOUND_EXACT ∨ k % 65536 ≠ (zeroCluster.entry i).key16 ∨
      d - DEPTH_ENTRY_OFFSET + 2 * (if pv then 1 else 0) >
        ((zeroCluster.entry i).depth8 : Int) - 4 ∨
      (zeroCluster.entry i).relative_age gen ≠ 0) := by
    refine Or.inr (Or.inr (Or.inl ?_))
    rw [hz]
    show d - DEPTH_ENTRY_OFFSET + 2 * (if pv then 1 else 0) > ((0 : Nat) : Int) - 4
    have hp : (0 : Int) ≤ (if pv then 1 else 0) := by cases pv <;> simp
    unfold DEPTH_ENTRY_OFFSET at hd0 ⊢
    omega
  have hcut2 : (if cut then (1 : Nat) else 0) < 2 := by cases cut <;> decide
  simp only [Cluster.save]
  rw [if_pos hcond]
  unfold Cluster.read
  rw [entry_writeCutBit, entry_setEntry_self,
    cutBit_writeCutBit _ i _ hi hcut2]
  -- decompose the packed genBound byte
  obtain ⟨t, ht⟩ : ∃ t, gen = 8 * t := ⟨gen / 8, by omega⟩
  have ht32 : t < 32 := by omega
  obtain ⟨hb3, hb4, _, _⟩ :=
    genBound_fields t ht32 b hb (if pv then 1 else 0) (by cases pv <;> decide)
  simp only [TTData.mk.injEq]
  refine ⟨?_, ?_, ?_, ?_, ?_, ?_, ?_⟩
  · -- move
    rw [hz]
    by_cases hm : m ≠ 0 ∨ k % 65536 ≠ zeroEntry.key16
    · rw [if_pos hm]
    · rw [if_neg hm]
      push_neg at hm
      show zeroEntry.move16 = m
      rw [hm.1]
      rfl
  · -- value
    unfold int16ofInt
    omega
  · -- eval
    unfold int16ofInt
    omega
  · -- depth
    unfold DEPTH_ENTRY_OFFSET at hd0 hd1 ⊢
    omega
  · -- bound
    rw [ht]
    exact hb3
  · -- is_pv
    rw [ht]
    have hpv2 := genBound_pv t ht32 b hb
    cases pv
    · simp [hpv2.1]
    · simp [hpv2.2]
  · -- cut
    cases cut
    · simp
    · simp

/-- Concrete instantiation of `save_read_roundtrip` at intra-cluster index 1. -/
theorem save_read_roundtrip_witness :
    (zeroCluster.save 1 777 100 true BOUND_LOWER 10 4660 (-5) true 16).read 1 =
      { move := 4660, value := 100, eval := -5, depth := 10, bound := BOUND_LOWER,
        pvHit := true, cutHit := true } :=
  save_read_roundtrip 1 777 100 (-5) true true BOUND_LOWER 10 4660 16 (by decide)
    (by decide) (by decide) (by decide) (by decide) (by decide) (by decide)
    (by decide) (by decide) (by decide)

/-- Extensionality for entries: all six fields equal makes entries equal. -/
theorem TTEntry.extEq (x y : TTEntry) (h1 : x.key16 = y.key16)
    (h2 : x.depth8 = y.depth8) (h3 : x.genBound8 = y.genBound8)
    (h4 : x.move16 = y.move16) (h5 : x.value16 = y.value16)
    (h6 : x.eval16 = y.eval16) : x = y := by
  cases x
  cases y
  simp only [TTEntry.mk.injEq]
  exact ⟨h1, h2, h3, h4, h5, h6⟩

/-- Concrete cluster refuting the literal no-op-save claim: entry 0 is
occupied at depth byte 10 with an UPPER bound of the current generation and
stored value 0. -/
def cexCluster : Cluster :=
  { e0 := { key16 := 0, depth8 := 10, genBound8 := 1, move16 := 7,
            value16 := 0, eval16 := 0 },
    e1 := zeroEntry, e2 := zeroEntry, extra := 0 }

/-- A save with matching key stub, identical depth, non-EXACT bound and
`move = 0` nevertheless rewrites the stored value: with equal depths the
depth clause of the overwrite condition always holds, so the incoming value
(here 5) replaces the stored one (here 0). -/
theorem noop_save_counterexample :
    (cexCluster.entry 0).is_occupied = true ∧
    (0 : Nat) % 65536 = (cexCluster.entry 0).key16 ∧
    (7 : Int) - DEPTH_ENTRY_OFFSET = ((cexCluster.entry 0).depth8 : Int) ∧
    BOUND_UPPER ≠ BOUND_EXACT ∧
    ((cexCluster.save 0 0 5 false BOUND_UPPER 7 0 0 false 0).entry 0).value16 ≠
      (cexCluster.entry 0).value16 := by
  decide

/-- C2 (amended): a save whose incoming key stub, depth, value, eval,
generation/PV/bound combination and cut flag all reproduce the stored data,
with bound not EXACT and `move = 0`, leaves the cluster completely
unchanged (the overwrite path is taken but writes back identical bytes). -/
theorem noop_save (c : Cluster) (i k : Nat) (v : Int) (pv : Bool) (b : Nat)
    (d : Int) (ev : Int) (cut : Bool) (gen : Nat)
    (hi : i < 3) (hextra : c.extra < 65536)
    (hd8 : (c.entry i).depth8 < 256)
    (hv0 : -32768 ≤ (c.entry i).value16) (hv1 : (c.entry i).value16 < 32768)
    (hev0 : -32768 ≤ (c.entry i).eval16) (hev1 : (c.entry i).eval16 < 32768)
    (hocc : (c.entry i).depth8 ≠ 0)
    (hkey : k % 65536 = (c.entry i).key16)
    (hdepth : d - DEPTH_ENTRY_OFFSET = ((c.entry i).depth8 : Int))
    (hb : b ≠ BOUND_EXACT)
    (hv : v = (c.entry i).value16) (hev : ev = (c.entry i).eval16)
    (hgb : (gen ||| (if pv then 1 else 0) <<< 2 ||| b) % 256 = (c.entry i).genBound8)
    (hcut : (if cut then (1 : Nat) else 0) = c.cutBit i) :
    c.save i k v pv b d 0 ev cut gen = c := by
  have hcond : (b = BOUND_EXACT ∨ k % 65536 ≠ (c.entry i).key16 ∨
      d - DEPTH_ENTRY_OFFSET + 2 * (if pv then 1 else 0) > ((c.entry i).depth8 : Int) - 4 ∨
      (c.entry i).relative_age gen ≠ 0) := by
    refine Or.inr (Or.inr (Or.inl ?_))
    have hp : (0 : Int) ≤ (if pv then 1 else 0) := by cases pv <;> simp
    omega
  simp only [Cluster.save]
  rw [if_pos hcond]
  have hE : TTEntry.mk (k % 65536) (((d - DEPTH_ENTRY_OFFSET) % 256).toNat)
      ((gen ||| (if pv then 1 else 0) <<< 2 ||| b) % 256)
      (if (0 : Nat) ≠ 0 ∨ k % 65536 ≠ (c.entry i).key16 then 0
        else (c.entry i).move16)
      (int16ofInt v) (int16ofInt ev) = c.entry i := by
    apply TTEntry.extEq
    · exact hkey
    · show ((d - DEPTH_ENTRY_OFFSET) % 256).toNat = (c.entry i).depth8
      omega
    · exact hgb
    · show (if (0 : Nat) ≠ 0 ∨ k % 65536 ≠ (c.entry i).key16 then 0
        else (c.entry i).move16) = (c.entry i).move16
      rw [if_neg]
      push_neg
      exact ⟨rfl, hkey⟩
    · show int16ofInt v = (c.entry i).value16
      unfold int16ofInt
      omega
    · show int16ofInt ev = (c.entry i).eval16
      unfold int16ofInt
      omega
  rw [hE, setEntry_entry_self, hcut]
  exact writeCutBit_cutBit c i hi hextra

/-- Concrete cluster whose entry 0 is fully reproduced by the witness save. -/
def cnoopCluster : Cluster :=
  { e0 := { key16 := 5, depth8 := 10, genBound8 := 21, move16 := 9,
            value16 := -7, eval16 := 3 },
    e1 := zeroEntry, e2 := zeroEntry, extra := 1 }

/-- Concrete instantiation of `noop_save`: re-saving the stored data leaves
the cluster untouched. -/
theorem noop_save_witness :
    cnoopCluster.save 0 5 (-7) true 1 7 0 3 true 16 = cnoopCluster :=
  noop_save cnoopCluster 0 5 (-7) true 1 7 3 true 16 (by decide) (by decide)
    (by decide) (by decide) (by decide) (by decide) (by decide) (by decide)
    (by decide) (by decide) (by decide) (by decide) (by decide) (by decide)
    (by decide)

/-- C10: when an entry's stored key stub equals the probed key's low 16
bits but the entry is unoccupied (`depth8 = 0`), and no earlier entry of
the cluster matches, `probe` returns a miss flag `false` together with that
entry's decoded snapshot and a writer to that entry, skipping the
replacement-victim scan; in particular any key with zero low 16 bits probed
against a cleared table takes this path at the cluster's first entry, whose
snapshot carries value 0 and eval 0 rather than the `VALUE_NONE` of the
documented default miss snapshot. -/
theorem probe_empty_stub_match (c : Cluster) (gen key : Nat) (i : Nat)
    (hi : i < 3)
    (hmatch : (c.entry i).key16 = key % 65536)
    (hunocc : (c.entry i).depth8 = 0)
    (hfirst : ∀ j < i, (c.entry j).key16 ≠ key % 65536) :
    c.probe gen key = (false, c.read i, i) ∧
    (∀ g k2, k2 % 65536 = 0 →
      zeroCluster.probe g k2 = (false, zeroCluster.read 0, 0)) ∧
    (zeroCluster.read 0).value = 0 ∧
    (zeroCluster.read 0).eval = 0 ∧
    missData.value = VALUE_NONE ∧
    VALUE_NONE ≠ 0 := by
  refine ⟨?_, ?_, by decide, by decide, rfl, by decide⟩
  · interval_cases i
    · simp only [Cluster.probe]
      rw [if_pos hmatch]
      simp [TTEntry.is_occupied, hunocc]
    · have h0 := hfirst 0 (by omega)
      simp only [Cluster.probe]
      rw [if_neg h0, if_pos hmatch]
      simp [TTEntry.is_occupied, hunocc]
    · have h0 := hfirst 0 (by omega)
      have h1 := hfirst 1 (by omega)
      simp only [Cluster.probe]
      rw [if_neg h0, if_neg h1, if_pos hmatch]
      simp [TTEntry.is_occupied, hunocc]
  · intro g k2 h0
    have hm : (zeroCluster.entry 0).key16 = k2 % 65536 := by
      rw [h0]
      rfl
    simp only [Cluster.probe]
    rw [if_pos hm]
    simp [TTEntry.is_occupied]
    rfl

/-- Concrete instantiation of `probe_empty_stub_match` on a cleared table. -/
theorem probe_empty_stub_match_witness :
    zeroCluster.probe 3 0 = (false, zeroCluster.read 0, 0) :=
  (probe_empty_stub_match zeroCluster 3 0 0 (by decide) (by decide) (by decide)
    (by decide)).1

end TT
